import Mathlib

/-!
Verification development for the DaVinci Resolve Video Converter GUI
(`video_converter.py`).  The definitions below are a shallow embedding of
the non-GUI logic of the `VideoConverter` class: directory scanning,
destination-conflict detection and resolution, the conversion
orchestrator loop, per-row status updates, progress computation, and the
two external-tool adapters (Avidemux path and HandBrake path).

Conventions of the embedding:
* Python strings are Lean `String`s; `os.path` operations on POSIX paths
  are re-implemented character-for-character where the code relies on
  them (`os.path.splitext`, `os.path.basename`, `os.path.dirname`,
  `os.path.join`, `Path.suffix`).  `str.lower()` is modelled for the
  ASCII range, which covers every extension the program compares.
* The filesystem visible to `os.path.exists` / `os.path.getsize` is a
  finite association list from path to size (`FS`).
* External processes are opaque: an adapter invocation is summarised by
  the process exit code and the filesystem state after the process ran
  (both supplied by a `ToolEnv`).
* Functions that raise in Python (`ZeroDivisionError` in the progress
  computation) return `Option`.
-/

namespace VideoConv

/-! ## Strings and POSIX paths -/

/-- Split a character list at its *last* `'.'`: returns
`some (before, dot :: after)` where `after` contains no further dot,
or `none` when the list contains no dot. -/
def splitAtLastDot : List Char → Option (List Char × List Char)
  | [] => none
  | c :: rest =>
    match splitAtLastDot rest with
    | some (b, a) => some (c :: b, a)
    | none => if c = '.' then some ([], '.' :: rest) else none

/-- `os.path.splitext` restricted to a final path component (which is how
`video_converter.py` always calls it): split off the extension at the
last dot, except that a name whose characters before that dot are all
dots (e.g. `".bashrc"`, `"..."`) has no extension. -/
def splitext (name : String) : String × String :=
  match splitAtLastDot name.data with
  | some (b, a) => if b.any (fun c => c ≠ '.') then (⟨b⟩, ⟨a⟩) else (name, "")
  | none => (name, "")

/-- `pathlib.Path.suffix` (what `scan_videos` reads as
`file_path.suffix`): with `i = name.rfind('.')`, the suffix is
`name[i:]` when `0 < i < len(name) - 1` and `''` otherwise — the last
dot yields an extension exactly when it is neither the first nor the
last character of the final component.  (This positional rule differs
from `os.path.splitext`, which also rejects an all-dots stem: pathlib
gives `'..mp4'` the suffix `'.mp4'`.)  `splitAtLastDot name.data =
some (b, a)` locates the last dot, at index `b.length`, with
`a = '.' :: rest`; `0 < i` is `b ≠ []` and `i < len(name) - 1` is
`1 < a.length`. -/
def path_suffix (name : String) : String :=
  match splitAtLastDot name.data with
  | some (b, a) => if b ≠ [] ∧ 1 < a.length then ⟨a⟩ else ""
  | none => ""

/-- Split a character list at its last `'/'`: returns
`some (before, after)` with `before ++ '/' :: after` the input and no
`'/'` in `after`; `none` when there is no slash. -/
def splitAtLastSlash : List Char → Option (List Char × List Char)
  | [] => none
  | c :: rest =>
    match splitAtLastSlash rest with
    | some (b, a) => some (c :: b, a)
    | none => if c = '/' then some ([], rest) else none

/-- `os.path.basename` (POSIX): everything after the last `'/'`. -/
def basename (p : String) : String :=
  match splitAtLastSlash p.data with
  | some (_, a) => ⟨a⟩
  | none => p

/-- `os.path.dirname` (POSIX): everything up to the last `'/'`; the
result keeps a run of leading slashes but drops other trailing slashes
(matching `posixpath.dirname`). -/
def dirname (p : String) : String :=
  match splitAtLastSlash p.data with
  | none => ""
  | some (b, _) =>
    let head := b ++ ['/']
    if head.all (fun c => c = '/') then ⟨head⟩
    else ⟨(head.reverse.dropWhile (fun c => c = '/')).reverse⟩

/-- `b.startswith('/')`: the first character is the separator. -/
def starts_with_sep (b : String) : Bool := b.data.head? == some '/'

/-- `a.endswith('/')`: the last character is the separator. -/
def ends_with_sep (a : String) : Bool := a.data.getLast? == some '/'

/-- `os.path.join` (POSIX, two arguments): an absolute second component
replaces the first; otherwise a separator is inserted unless the first
component is empty or already ends in one. -/
def os_path_join (a b : String) : String :=
  if starts_with_sep b then b
  else if a = "" || ends_with_sep a then a ++ b
  else a ++ "/" ++ b

/-- Python `str.lower()` on the ASCII range (every extension compared by
the program is ASCII). -/
def str_lower (s : String) : String := ⟨s.data.map Char.toLower⟩

/-! ## Filesystem model -/

/-- The filesystem as seen through `os.path.exists` / `os.path.getsize`:
a finite association list from absolute path to file size in bytes. -/
structure FS where
  files : List (String × Nat)
  deriving Repr, DecidableEq

/-- `os.path.exists`. -/
def FS.path_exists (fs : FS) (p : String) : Bool :=
  fs.files.any (fun f => f.1 == p)

/-- `os.path.getsize`; the program only calls it on paths it has just
checked with `os.path.exists`, so the default `0` for a missing path is
never observed on the code's own call sites. -/
def FS.getsize (fs : FS) (p : String) : Nat :=
  (((fs.files.find? (fun f => f.1 == p)).map Prod.snd)).getD 0

/-! ## Directory scanner (`scan_videos`) -/

/-- One entry produced by `Path(input_dir).rglob('*')`: its final path
component and whether it is a directory.  `rglob('*')` yields every
entry under the directory recursively, directories included. -/
structure FSEntry where
  name : String
  isDir : Bool
  deriving Repr, DecidableEq

/-- The fixed extension set of `scan_videos`. -/
def video_extensions : List String :=
  [".mp4", ".avi", ".mov", ".mkv", ".wmv", ".flv", ".webm", ".m4v"]

/-- The filter `scan_videos` applies to each `rglob` entry:
`file_path.suffix.lower() in video_extensions`. -/
def has_video_extension (name : String) : Bool :=
  video_extensions.contains (str_lower (path_suffix name))

/-- The collection loop of `scan_videos`: keep every `rglob('*')` entry
whose suffix, lowercased, is in `video_extensions`.  There is no
regular-file check in the source, so the entry kind is not consulted. -/
def scan_videos (entries : List FSEntry) : List FSEntry :=
  entries.filter (fun e => has_video_extension e.name)

/-! ## Format profiles (`self.supported_formats`) -/

/-- The two keys of the `supported_formats` dictionary. -/
inductive FormatName
  | MJPEG
  | H264
  deriving Repr, DecidableEq

/-- The `'extension'` field of each `supported_formats` entry:
`'.avi'` for MJPEG, `'.mp4'` for H.264. -/
def format_extension : FormatName → String
  | .MJPEG => ".avi"
  | .H264 => ".mp4"

/-! ## Timestamps (`datetime.now().strftime("%Y%m%d_%H%M%S")`) -/

/-- A wall-clock instant at second precision, as consumed by the
`"%Y%m%d_%H%M%S"` format string. -/
structure PyDateTime where
  year : Nat
  month : Nat
  day : Nat
  hour : Nat
  minute : Nat
  second : Nat
  deriving Repr, DecidableEq

/-- Zero-pad a number to two digits (`%m`, `%d`, `%H`, `%M`, `%S`). -/
def pad2 (n : Nat) : String :=
  if n < 10 then "0" ++ toString n else toString n

/-- Zero-pad a number to four digits (`%Y`). -/
def pad4 (n : Nat) : String :=
  if n < 10 then "000" ++ toString n
  else if n < 100 then "00" ++ toString n
  else if n < 1000 then "0" ++ toString n
  else toString n

/-- `datetime.now().strftime("%Y%m%d_%H%M%S")` at the instant `t`. -/
def strftime_timestamp (t : PyDateTime) : String :=
  pad4 t.year ++ pad2 t.month ++ pad2 t.day ++ "_" ++
    pad2 t.hour ++ pad2 t.minute ++ pad2 t.second

/-! ## `generate_unique_filename` -/

/-- The `while os.path.exists(base_path)` loop of the `"suffix"`
strategy: try `name_1`, `name_2`, … until the generated path is free.
The Python loop terminates because the filesystem is finite and the
candidate names are pairwise distinct; here the recursion is bounded by
an explicit fuel, which callers set to `fs.files.length + 1` — enough
for the loop to reach a free name, since each iteration requires the
current candidate to be one of the finitely many existing paths. -/
def suffix_loop (fs : FS) (directory name ext : String) :
    Nat → String → Nat → String
  | 0, base_path, _ => base_path
  | fuel + 1, base_path, counter =>
    if fs.path_exists base_path then
      suffix_loop fs directory name ext fuel
        (os_path_join directory (name ++ "_" ++ toString counter ++ ext))
        (counter + 1)
    else base_path

/-- `generate_unique_filename(base_path, strategy)`.  The `"timestamp"`
strategy appends `_YYYYMMDD_HHMMSS` once and performs no existence
check on the generated path; the `"suffix"` strategy increments a
counter until the path is free; any other strategy returns the path
unchanged. -/
def generate_unique_filename (fs : FS) (now : PyDateTime)
    (base_path : String) (strategy : String) : String :=
  let directory := dirname base_path
  let filename := basename base_path
  let ne := splitext filename
  if strategy == "suffix" then
    suffix_loop fs directory ne.1 ne.2 (fs.files.length + 1) base_path 1
  else if strategy == "timestamp" then
    os_path_join directory (ne.1 ++ "_" ++ strftime_timestamp now ++ ne.2)
  else base_path

/-! ## External tool adapters -/

/-- The observable context of one adapter call: the filesystem at the
existence checks before the tool is spawned, the exit code the spawned
process would return, the filesystem after the process has run, and the
current wall-clock time.  Mid-stream cancellation (the Avidemux path's
`process.terminate()` on the stop flag) is outside this model: the
environment describes a call during which the stop flag stays unset. -/
structure ToolEnv where
  fs : FS
  returnCode : Int
  postFs : FS
  now : PyDateTime
  deriving Repr, DecidableEq

/-- The result-classification tail of `convert_single_video` (Avidemux
path): success iff the exit code is `0`, the output path exists, and
its size is positive. -/
def convert_single_video_classify (returnCode : Int) (postFs : FS)
    (output_path : String) : Bool :=
  if returnCode == 0 && postFs.path_exists output_path then
    if postFs.getsize output_path > 0 then true else false
  else false

/-- The result-classification tail of `convert_with_handbrake`: success
iff `proc.returncode == 0`.  The destination file is not consulted. -/
def convert_with_handbrake_classify (returnCode : Int) (postFs : FS)
    (output_path : String) : Bool :=
  if returnCode == 0 then true else false

/-- What one adapter call did: the boolean it returned, whether it
spawned the external process, the destination path it settled on (when
it got that far), and the path it passed to `os.remove` (the HandBrake
path's overwrite branch is the only deletion in either adapter). -/
structure AdapterCall where
  result : Bool
  invoked : Bool
  output_path : Option String
  removed : Option String
  deriving Repr, DecidableEq

/-- The five AppImage candidate locations probed first by
`convert_single_video` (`appimage_paths`), relative to the application
directory.  `os.path.abspath` normalisation of `..` segments is elided:
candidates are compared with the filesystem as literal strings. -/
def avidemux_appimage_candidates (app_dir : String) : List String :=
  [os_path_join app_dir "../../tools/avidemux.appImage",
   os_path_join app_dir "../tools/avidemux.appImage",
   os_path_join app_dir "tools/avidemux.appImage",
   os_path_join app_dir "avidemux_2.8.1.appImage",
   "./avidemux_2.8.1.appImage"]

/-- The fallback candidates, `possible_paths[4:]` in the source (the
slice re-includes the current-directory AppImage before the two system
CLI locations). -/
def avidemux_cli_candidates : List String :=
  ["./avidemux_2.8.1.appImage",
   "/usr/bin/avidemux3_cli",
   "/usr/bin/avidemux_cli"]

/-- The tool-discovery prelude of `convert_single_video`: first
existing AppImage candidate, else first existing CLI candidate, else
`none` (the adapter then fails without spawning anything). -/
def find_avidemux (fs : FS) (app_dir : String) : Option String :=
  match (avidemux_appimage_candidates app_dir).find? fs.path_exists with
  | some p => some p
  | none => avidemux_cli_candidates.find? fs.path_exists

/-- `convert_single_video` (Avidemux path).  Computes `<stem>.mov` in
the output directory, applies the resolved conflict policy when that
path exists (`"skip"` returns success without spawning; `"suffix"` and
`"timestamp"` rename via `generate_unique_filename`; anything else —
`"overwrite"` — keeps the path), then spawns the tool and classifies
the outcome from the exit code and the output file. -/
def convert_single_video (env : ToolEnv) (app_dir : String)
    (conflict_resolution : String) (output_directory : String)
    (video_path : String) : AdapterCall :=
  match find_avidemux env.fs app_dir with
  | none => ⟨false, false, none, none⟩
  | some _ =>
    let input_name := (splitext (basename video_path)).1
    let output_name := input_name ++ ".mov"
    let output_path := os_path_join output_directory output_name
    if env.fs.path_exists output_path then
      if conflict_resolution == "skip" then ⟨true, false, none, none⟩
      else
        let output_path :=
          if conflict_resolution == "suffix" then
            generate_unique_filename env.fs env.now output_path "suffix"
          else if conflict_resolution == "timestamp" then
            generate_unique_filename env.fs env.now output_path "timestamp"
          else output_path
        ⟨convert_single_video_classify env.returnCode env.postFs output_path,
          true, some output_path, none⟩
    else
      ⟨convert_single_video_classify env.returnCode env.postFs output_path,
        true, some output_path, none⟩

/-- The destination filename `convert_with_handbrake` builds before
conflict handling: `<stem>_converted.mp4`. -/
def handbrake_output_name (video_path : String) : String :=
  (splitext (basename video_path)).1 ++ "_converted.mp4"

/-- The inline `while os.path.exists(output_path)` loop of
`convert_with_handbrake`'s final conflict branch: numeric suffixes
`_1`, `_2`, … on `<stem>_converted`.  Fuel plays the same role as in
`suffix_loop`. -/
def handbrake_suffix_loop (fs : FS) (output_directory base ext : String) :
    Nat → String → Nat → String
  | 0, output_path, _ => output_path
  | fuel + 1, output_path, n =>
    if fs.path_exists output_path then
      handbrake_suffix_loop fs output_directory base ext fuel
        (os_path_join output_directory (base ++ "_" ++ toString n ++ ext)) (n + 1)
    else output_path

/-- `convert_with_handbrake` (HandBrake path).  Computes
`<stem>_converted.mp4` in the output directory; when that path exists,
`"skip"` returns success without spawning, `"overwrite"` deletes the
existing file with `os.remove` and keeps the path, and every other
policy (both `"suffix"` and `"timestamp"`) runs the inline numeric
suffix loop; then spawns HandBrakeCLI and classifies the outcome from
the exit code alone. -/
def convert_with_handbrake (env : ToolEnv) (conflict_resolution : String)
    (output_directory : String) (video_path : String) : AdapterCall :=
  let output_name := handbrake_output_name video_path
  let output_path := os_path_join output_directory output_name
  if env.fs.path_exists output_path then
    if conflict_resolution == "skip" then ⟨true, false, none, none⟩
    else if conflict_resolution == "overwrite" then
      ⟨convert_with_handbrake_classify env.returnCode env.postFs output_path,
        true, some output_path, some output_path⟩
    else
      let be := splitext output_name
      let p := handbrake_suffix_loop env.fs output_directory be.1 be.2
        (env.fs.files.length + 1) output_path 1
      ⟨convert_with_handbrake_classify env.returnCode env.postFs p,
        true, some p, none⟩
  else
    ⟨convert_with_handbrake_classify env.returnCode env.postFs output_path,
      true, some output_path, none⟩

/-! ## Conflict detector (`check_destination_conflicts`) -/

/-- The destination filename `check_destination_conflicts` predicts for
a source file under a given format: `<stem><format extension>`. -/
def predicted_output_name (fmt : FormatName) (video_path : String) : String :=
  (splitext (basename video_path)).1 ++ format_extension fmt

/-- `check_destination_conflicts`: with no output directory the result
is empty; otherwise, for every stored file whose basename is among the
selected names, predict `<stem><format extension>` in the output
directory and report the pair when that path already exists.  (The
Python dict keyed by source path is modelled as the association list in
`video_files` order.) -/
def check_destination_conflicts (fs : FS) (output_directory : String)
    (fmt : FormatName) (video_files selected_videos : List String) :
    List (String × String) :=
  if output_directory == "" then []
  else
    video_files.filterMap (fun video_path =>
      if selected_videos.contains (basename video_path) then
        let output_path :=
          os_path_join output_directory (predicted_output_name fmt video_path)
        if fs.path_exists output_path then some (video_path, output_path)
        else none
      else none)

/-! ## Conversion orchestrator (`convert_videos`) -/

/-- The tree rows backing the video list: each row is the `values`
tuple `[checkbox, name, size, duration, status]` exactly as
`scan_videos` inserts it. -/
abbrev TreeRow := List String

/-- `update_video_status(video_path, status)`: walk the rows, skip any
row with fewer than two values, and in the *first* row whose second
value equals the file's basename assign `values[3] = status` — index 3,
which in the five-column layout
`('Select', 'Name', 'Size', 'Duration', 'Status')` is the Duration
cell, not the Status cell (index 4). -/
def update_video_status (rows : List TreeRow) (video_name status : String) :
    List TreeRow :=
  match rows with
  | [] => []
  | v :: rest =>
    if 2 ≤ v.length then
      if v.getD 1 "" == video_name then v.set 3 status :: rest
      else v :: update_video_status rest video_name status
    else v :: update_video_status rest video_name status

/-- `update_progress(current, total)`: `(current / total) * 100`.  The
Python division raises `ZeroDivisionError` when `total = 0`; that
partiality is the `none` case.  The float value is modelled exactly as
a rational. -/
def update_progress (current total : Nat) : Option ℚ :=
  if total = 0 then none else some ((current : ℚ) / (total : ℚ) * 100)

/-- The selection-extraction prologue of `convert_videos`: for each
checked row (`values[0] == '☑'`), append the first stored path whose
basename equals the row's name cell; a checked row matching no stored
path contributes nothing. -/
def selected_video_paths (rows : List TreeRow) (video_files : List String) :
    List String :=
  rows.filterMap (fun values =>
    if values.getD 0 "" == "☑" then
      video_files.find? (fun video_path => basename video_path == values.getD 1 "")
    else none)

/-- What one dispatched adapter call came to, as the orchestrator loop
sees it: the adapter returned `True`, returned `False`, or raised (the
loop's `except` arm).  For file `i` this abstracts the boolean
`convert_single_video` / `convert_with_handbrake` computed in the
environment that call ran in. -/
inductive AdapterOutcome
  | success
  | failure
  | exception
  deriving Repr, DecidableEq

/-- The cooperative stop flag `self.stop_conversion` as observed at the
check before file `i` (and, at `i = total`, at the end-of-run outcome
check): the user's stop request arrives before check `k` and the flag
stays set from then on. -/
def stop_flag (stopFrom : Option Nat) (i : Nat) : Bool :=
  match stopFrom with
  | none => false
  | some k => decide (k ≤ i)

/-- The observable trace of the orchestrator's for-loop. -/
structure LoopResult where
  rows : List TreeRow
  converted : Nat
  attempted : List String
  broke : Bool
  deriving Repr, DecidableEq

/-- The for-loop of `convert_videos`: before each file check the stop
flag and `break` when set; otherwise dispatch the file to its adapter
and record `"Completed"` (counting it as converted) or `"Failed"` via
`update_video_status`; an exception is caught and also records
`"Failed"`; then continue with the next file. -/
def convert_videos_loop (adapter : Nat → AdapterOutcome)
    (stopFrom : Option Nat) :
    Nat → List String → List TreeRow → LoopResult
  | _, [], rows => ⟨rows, 0, [], false⟩
  | i, video_path :: rest, rows =>
    if stop_flag stopFrom i then ⟨rows, 0, [], true⟩
    else
      match adapter i with
      | .success =>
        let r := convert_videos_loop adapter stopFrom (i + 1) rest
          (update_video_status rows (basename video_path) "Completed")
        ⟨r.rows, r.converted + 1, video_path :: r.attempted, r.broke⟩
      | .failure =>
        let r := convert_videos_loop adapter stopFrom (i + 1) rest
          (update_video_status rows (basename video_path) "Failed")
        ⟨r.rows, r.converted, video_path :: r.attempted, r.broke⟩
      | .exception =>
        let r := convert_videos_loop adapter stopFrom (i + 1) rest
          (update_video_status rows (basename video_path) "Failed")
        ⟨r.rows, r.converted, video_path :: r.attempted, r.broke⟩

/-- The three end-of-run reports of `convert_videos`. -/
inductive BatchOutcome
  | stopped
  | allSuccess
  | partialSuccess
  deriving Repr, DecidableEq

/-- The end-of-run classification: stop flag set → "stopped by user";
else all converted → full success; else the partial-success warning. -/
def final_outcome (stopFlagAtEnd : Bool) (converted total : Nat) :
    BatchOutcome :=
  if stopFlagAtEnd then .stopped
  else if converted = total then .allSuccess
  else .partialSuccess

/-- The observable result of one `convert_videos` run. -/
structure RunResult where
  rows : List TreeRow
  converted : Nat
  attempted : List String
  outcome : BatchOutcome
  finalProgress : Option ℚ
  deriving Repr, DecidableEq

/-- `convert_videos` on an already-extracted selected list: run the
loop, then issue the unconditional `update_progress(total, total)` and
classify the batch outcome from the stop flag as observed after the
loop. -/
def convert_videos_selected (adapter : Nat → AdapterOutcome)
    (stopFrom : Option Nat) (rows : List TreeRow)
    (selected : List String) : RunResult :=
  let total := selected.length
  let r := convert_videos_loop adapter stopFrom 0 selected rows
  { rows := r.rows
    converted := r.converted
    attempted := r.attempted
    outcome := final_outcome (stop_flag stopFrom total) r.converted total
    finalProgress := update_progress total total }

/-- `convert_videos`: selection extraction followed by the loop and the
end-of-run reporting. -/
def convert_videos (adapter : Nat → AdapterOutcome) (stopFrom : Option Nat)
    (rows : List TreeRow) (video_files : List String) : RunResult :=
  convert_videos_selected adapter stopFrom rows
    (selected_video_paths rows video_files)

/-! ## The spec's success classification (for claim C1)

Modelled from the spec's words, for comparison with the code-derived
classifiers: "classify the result as successful only if both (a) the
process exit code is zero/success AND (b) the destination file exists
afterward with non-zero size". -/

/-- The spec's adapter success condition. -/
def adapter_success_spec (returnCode : Int) (postFs : FS)
    (output_path : String) : Prop :=
  returnCode = 0 ∧ postFs.path_exists output_path = true ∧
    0 < postFs.getsize output_path

instance (returnCode : Int) (postFs : FS) (output_path : String) :
    Decidable (adapter_success_spec returnCode postFs output_path) := by
  unfold adapter_success_spec; infer_instance

/-! ## Helper lemmas -/

theorem convert_single_video_classify_iff (returnCode : Int) (postFs : FS)
    (output_path : String) :
    convert_single_video_classify returnCode postFs output_path = true ↔
      adapter_success_spec returnCode postFs output_path := by
  unfold convert_single_video_classify adapter_success_spec
  by_cases h : (returnCode == 0 && postFs.path_exists output_path) = true
  · rw [if_pos h]
    rw [Bool.and_eq_true, beq_iff_eq] at h
    obtain ⟨h0, hex⟩ := h
    by_cases hs : postFs.getsize output_path > 0
    · rw [if_pos hs]
      simp [h0, hex, hs]
    · rw [if_neg hs]
      constructor
      · intro hh
        exact absurd hh (by decide)
      · intro hcon
        exact absurd hcon.2.2 hs
  · rw [if_neg h]
    rw [Bool.and_eq_true, beq_iff_eq] at h
    constructor
    · intro hh
      exact absurd hh (by decide)
    · intro hcon
      exact absurd ⟨hcon.1, hcon.2.1⟩ h

theorem convert_with_handbrake_classify_iff (returnCode : Int) (postFs : FS)
    (output_path : String) :
    convert_with_handbrake_classify returnCode postFs output_path = true ↔
      returnCode = 0 := by
  unfold convert_with_handbrake_classify
  by_cases h : (returnCode == 0) = true
  · rw [if_pos h]
    rw [beq_iff_eq] at h
    simp [h]
  · rw [if_neg h]
    rw [beq_iff_eq] at h
    simp [h]

/-! ## Claim theorems -/

/-- **C1, counterexample.**  The claim — an adapter attempt is
classified successful iff the exit code is zero and the destination
exists with non-zero size — fails on the HandBrake path: with exit code
`0` and a filesystem on which the destination was never created, the
HandBrake classification is success, while the claimed condition is
false. -/
theorem claim_C1_counterexample :
    ¬ (convert_with_handbrake_classify 0 ⟨[]⟩ "/out/a_converted.mp4" = true ↔
        adapter_success_spec 0 ⟨[]⟩ "/out/a_converted.mp4") := by
  decide

/-- **C1, amended.**  The Avidemux-path attempt is classified
successful iff the exit code is zero AND the destination exists with
non-zero size; the HandBrake-path attempt is classified successful iff
the exit code is zero, with no check of the destination file at all. -/
theorem claim_C1 (returnCode : Int) (postFs : FS) (output_path : String) :
    (convert_single_video_classify returnCode postFs output_path = true ↔
      adapter_success_spec returnCode postFs output_path) ∧
    (convert_with_handbrake_classify returnCode postFs output_path = true ↔
      returnCode = 0) :=
  ⟨convert_single_video_classify_iff returnCode postFs output_path,
   convert_with_handbrake_classify_iff returnCode postFs output_path⟩

/-- **C2.**  The claim says the orchestrator drives the Status field
along Ready → Converting → Completed/Failed.  Evaluating the code on a
one-file run whose adapter succeeds: no `"Converting"` is ever written,
and the terminal `"Completed"` lands in `values[3]` — the Duration
cell — while the Status cell (`values[4]`) still holds `"Ready"` after
the run, contradicting `update_video_status`'s own purpose of updating
the status column. -/
theorem claim_C2 :
    (convert_videos (fun _ => AdapterOutcome.success) none
        [["☑", "a.mp4", "1.0 MB", "0:30", "Ready"]] ["/in/a.mp4"]).rows
      = [["☑", "a.mp4", "1.0 MB", "Completed", "Ready"]] ∧
    (((convert_videos (fun _ => AdapterOutcome.success) none
        [["☑", "a.mp4", "1.0 MB", "0:30", "Ready"]] ["/in/a.mp4"]).rows.getD 0 []).getD 4 ""
      = "Ready") ∧
    ("Ready" : String) ≠ "Completed" ∧ ("Ready" : String) ≠ "Converting" := by
  refine ⟨by decide, by decide, by decide, by decide⟩

/-- **C7, counterexample.**  The claim — scanning yields exactly the
*files* with a matching extension and no other filesystem entries —
fails because `rglob('*')` also yields directories and `scan_videos`
never checks the entry kind: a directory named `clips.mp4` is
collected. -/
theorem claim_C7_counterexample :
    scan_videos [⟨"clips.mp4", true⟩]
        ≠ List.filter (fun e => !e.isDir && has_video_extension e.name)
            [⟨"clips.mp4", true⟩] ∧
    (⟨"clips.mp4", true⟩ : FSEntry) ∈ scan_videos [⟨"clips.mp4", true⟩] ∧
    (⟨"clips.mp4", true⟩ : FSEntry).isDir = true := by
  refine ⟨by decide, by decide, by decide⟩

/-- **C7, amended.**  Scanning a directory yields exactly the
recursively-enumerated filesystem entries — regular files and
directories alike, with no file-kind check — whose extension,
lowercased, is one of `{.mp4, .avi, .mov, .mkv, .wmv, .flv, .webm,
.m4v}`, and no other entries. -/
theorem claim_C7 (entries : List FSEntry) (e : FSEntry) :
    e ∈ scan_videos entries ↔
      e ∈ entries ∧ str_lower (path_suffix e.name) ∈ video_extensions := by
  unfold scan_videos has_video_extension
  rw [List.mem_filter]
  constructor
  · rintro ⟨hmem, hext⟩
    exact ⟨hmem, by simpa using hext⟩
  · rintro ⟨hmem, hext⟩
    exact ⟨hmem, by simpa using hext⟩

theorem convert_videos_loop_attempted_of_no_stop
    (adapter : Nat → AdapterOutcome) :
    ∀ (files : List String) (i : Nat) (rows : List TreeRow),
      (convert_videos_loop adapter none i files rows).attempted = files := by
  intro files
  induction files with
  | nil => intro i rows; rfl
  | cons f rest ih =>
    intro i rows
    show (convert_videos_loop adapter none i (f :: rest) rows).attempted
        = f :: rest
    unfold convert_videos_loop
    have hflag : stop_flag none i = false := rfl
    rw [hflag]
    simp only [Bool.false_eq_true, if_false]
    cases adapter i <;> simp [ih]

theorem stop_flag_some_eq_true_iff (k i : Nat) :
    stop_flag (some k) i = true ↔ k ≤ i := by
  simp [stop_flag]

theorem stop_flag_some_eq_false_iff (k i : Nat) :
    stop_flag (some k) i = false ↔ i < k := by
  simp [stop_flag]

/-- A run whose stop request arrives before check `k` produces the same
rows, the same conversion count, and attempts exactly the first
`k - i` files, as the unstopped run on that prefix. -/
theorem convert_videos_loop_stop_take (adapter : Nat → AdapterOutcome)
    (k : Nat) :
    ∀ (files : List String) (i : Nat) (rows : List TreeRow), i ≤ k →
      (convert_videos_loop adapter (some k) i files rows).rows
          = (convert_videos_loop adapter none i (files.take (k - i)) rows).rows ∧
      (convert_videos_loop adapter (some k) i files rows).converted
          = (convert_videos_loop adapter none i (files.take (k - i))
              rows).converted ∧
      (convert_videos_loop adapter (some k) i files rows).attempted
          = files.take (k - i) := by
  intro files
  induction files with
  | nil =>
    intro i rows _
    simp [convert_videos_loop]
  | cons f rest ih =>
    intro i rows hik
    by_cases hflag : stop_flag (some k) i = true
    · have hk : k - i = 0 := by
        have := (stop_flag_some_eq_true_iff k i).mp hflag
        omega
      rw [hk]
      simp only [List.take_zero]
      unfold convert_videos_loop
      rw [if_pos hflag]
      exact ⟨rfl, rfl, rfl⟩
    · have hflag' : stop_flag (some k) i = false := by
        cases hf : stop_flag (some k) i
        · rfl
        · exact absurd hf hflag
      have hilt : i < k := (stop_flag_some_eq_false_iff k i).mp hflag'
      have hk : k - i = (k - (i + 1)) + 1 := by omega
      rw [hk, List.take_succ_cons]
      unfold convert_videos_loop
      rw [hflag']
      have hnone : stop_flag none i = false := rfl
      rw [hnone]
      simp only [Bool.false_eq_true, if_false]
      obtain ⟨ihr, ihc, iha⟩ :=
        ih (i + 1) (update_video_status rows (basename f) "Completed")
          (by omega)
      obtain ⟨ihr', ihc', iha'⟩ :=
        ih (i + 1) (update_video_status rows (basename f) "Failed")
          (by omega)
      cases adapter i
      · exact ⟨ihr, by simp [ihc], by simp [iha]⟩
      · exact ⟨ihr', by simp [ihc'], by simp [iha']⟩
      · exact ⟨ihr', by simp [ihc'], by simp [iha']⟩

/-- `update_video_status` never disturbs a row whose name cell differs
from the updated file name. -/
theorem mem_update_video_status_of_ne (v : TreeRow) :
    ∀ (rows : List TreeRow) (video_name status : String),
      v ∈ rows → v.getD 1 "" ≠ video_name →
      v ∈ update_video_status rows video_name status := by
  intro rows
  induction rows with
  | nil =>
    intro video_name status hv _
    exact absurd hv (List.not_mem_nil v)
  | cons u rest ih =>
    intro video_name status hv hne
    unfold update_video_status
    by_cases hlen : 2 ≤ u.length
    · rw [if_pos hlen]
      by_cases hb : (u.getD 1 "" == video_name) = true
      · rw [if_pos hb]
        rcases List.mem_cons.mp hv with h1 | h2
        · exact absurd (h1 ▸ beq_iff_eq.mp hb) hne
        · exact List.mem_cons_of_mem _ h2
      · rw [if_neg hb]
        rcases List.mem_cons.mp hv with h1 | h2
        · exact h1 ▸ List.mem_cons_self _ _
        · exact List.mem_cons_of_mem _ (ih video_name status h2 hne)
    · rw [if_neg hlen]
      rcases List.mem_cons.mp hv with h1 | h2
      · exact h1 ▸ List.mem_cons_self _ _
      · exact List.mem_cons_of_mem _ (ih video_name status h2 hne)

/-- The loop never disturbs a row whose name cell matches none of the
processed files. -/
theorem mem_convert_videos_loop_rows (adapter : Nat → AdapterOutcome)
    (stopFrom : Option Nat) (v : TreeRow) :
    ∀ (files : List String) (i : Nat) (rows : List TreeRow),
      v ∈ rows → (∀ f ∈ files, v.getD 1 "" ≠ basename f) →
      v ∈ (convert_videos_loop adapter stopFrom i files rows).rows := by
  intro files
  induction files with
  | nil =>
    intro i rows hv _
    exact hv
  | cons f rest ih =>
    intro i rows hv hnames
    unfold convert_videos_loop
    by_cases hflag : stop_flag stopFrom i = true
    · rw [if_pos hflag]
      exact hv
    · have hflag' : stop_flag stopFrom i = false := by
        cases hf : stop_flag stopFrom i
        · rfl
        · exact absurd hf hflag
      rw [hflag']
      simp only [Bool.false_eq_true, if_false]
      have hvu : ∀ status : String,
          v ∈ update_video_status rows (basename f) status := fun status =>
        mem_update_video_status_of_ne v rows (basename f) status hv
          (hnames f (List.mem_cons_self f rest))
      have hrest : ∀ g ∈ rest, v.getD 1 "" ≠ basename g := fun g hg =>
        hnames g (List.mem_cons_of_mem f hg)
      cases adapter i
      · exact ih (i + 1) _ (hvu "Completed") hrest
      · exact ih (i + 1) _ (hvu "Failed") hrest
      · exact ih (i + 1) _ (hvu "Failed") hrest

/-- **C3.**  When cancellation arrives after `k` of the selected files
have been processed, the run is observationally the unstopped run on
the first `k` files: exactly those `k` files are dispatched to an
adapter, the rows (hence every status already recorded) are exactly
those of the `k`-file run, a row matching none of the first `k` names —
in particular every unattempted file's row — is left exactly as it was,
and the batch outcome is reported as stopped-by-user, which is distinct
from both the full-success report and the partial-success report. -/
theorem claim_C3 (adapter : Nat → AdapterOutcome) (rows : List TreeRow)
    (selected : List String) (k : Nat) (h : k ≤ selected.length) :
    (convert_videos_selected adapter (some k) rows selected).attempted
        = selected.take k ∧
    (convert_videos_selected adapter (some k) rows selected).rows
        = (convert_videos_selected adapter none rows (selected.take k)).rows ∧
    (∀ v ∈ rows, (∀ f ∈ selected.take k, v.getD 1 "" ≠ basename f) →
      v ∈ (convert_videos_selected adapter (some k) rows selected).rows) ∧
    (convert_videos_selected adapter (some k) rows selected).outcome
        = BatchOutcome.stopped ∧
    BatchOutcome.stopped ≠ BatchOutcome.allSuccess ∧
    BatchOutcome.stopped ≠ BatchOutcome.partialSuccess := by
  obtain ⟨hr, _, ha⟩ :=
    convert_videos_loop_stop_take adapter k selected 0 rows (Nat.zero_le k)
  rw [Nat.sub_zero] at hr ha
  refine ⟨ha, hr, ?_, ?_, by decide, by decide⟩
  · intro v hv hnames
    show v ∈ (convert_videos_loop adapter (some k) 0 selected rows).rows
    rw [hr]
    exact mem_convert_videos_loop_rows adapter none v (selected.take k) 0
      rows hv hnames
  · show final_outcome (stop_flag (some k) selected.length) _ _
        = BatchOutcome.stopped
    have : stop_flag (some k) selected.length = true :=
      (stop_flag_some_eq_true_iff k selected.length).mpr h
    rw [this]
    rfl

/-- **C3, witness.**  Cancellation after file 1 of 2: only the first
file is attempted, the second row is untouched, and the outcome is the
stopped report. -/
theorem claim_C3_witness :
    (1 ≤ (["/in/a.mp4", "/in/b.mp4"] : List String).length) ∧
    ((convert_videos_selected (fun _ => AdapterOutcome.success) (some 1)
          [["☑", "a.mp4", "1.0 MB", "0:30", "Ready"],
           ["☑", "b.mp4", "2.0 MB", "0:40", "Ready"]]
          ["/in/a.mp4", "/in/b.mp4"]).attempted
        = (["/in/a.mp4", "/in/b.mp4"] : List String).take 1 ∧
      (convert_videos_selected (fun _ => AdapterOutcome.success) (some 1)
          [["☑", "a.mp4", "1.0 MB", "0:30", "Ready"],
           ["☑", "b.mp4", "2.0 MB", "0:40", "Ready"]]
          ["/in/a.mp4", "/in/b.mp4"]).rows
        = (convert_videos_selected (fun _ => AdapterOutcome.success) none
            [["☑", "a.mp4", "1.0 MB", "0:30", "Ready"],
             ["☑", "b.mp4", "2.0 MB", "0:40", "Ready"]]
            ((["/in/a.mp4", "/in/b.mp4"] : List String).take 1)).rows ∧
      (∀ v ∈ [["☑", "a.mp4", "1.0 MB", "0:30", "Ready"],
              ["☑", "b.mp4", "2.0 MB", "0:40", "Ready"]],
          (∀ f ∈ (["/in/a.mp4", "/in/b.mp4"] : List String).take 1,
              v.getD 1 "" ≠ basename f) →
          v ∈ (convert_videos_selected (fun _ => AdapterOutcome.success)
              (some 1)
              [["☑", "a.mp4", "1.0 MB", "0:30", "Ready"],
               ["☑", "b.mp4", "2.0 MB", "0:40", "Ready"]]
              ["/in/a.mp4", "/in/b.mp4"]).rows) ∧
      (convert_videos_selected (fun _ => AdapterOutcome.success) (some 1)
          [["☑", "a.mp4", "1.0 MB", "0:30", "Ready"],
           ["☑", "b.mp4", "2.0 MB", "0:40", "Ready"]]
          ["/in/a.mp4", "/in/b.mp4"]).outcome = BatchOutcome.stopped ∧
      BatchOutcome.stopped ≠ BatchOutcome.allSuccess ∧
      BatchOutcome.stopped ≠ BatchOutcome.partialSuccess) :=
  ⟨by decide,
   claim_C3 (fun _ => AdapterOutcome.success)
     [["☑", "a.mp4", "1.0 MB", "0:30", "Ready"],
      ["☑", "b.mp4", "2.0 MB", "0:40", "Ready"]]
     ["/in/a.mp4", "/in/b.mp4"] 1 (by decide)⟩

/-- **C4.**  Under the `skip` policy, each adapter treats a file whose
destination already exists as an immediate success — the returned
boolean is `True`, so the orchestrator records it as converted — and
spawns no external process.  (For the Avidemux path this concerns the
calls that reach conflict handling, i.e. those in which the tool
discovery that precedes it found a binary; when no binary is found the
call fails before looking at the conflict.) -/
theorem claim_C4 (env env' : ToolEnv)
    (app_dir output_directory output_directory' video_path video_path' : String)
    (htool : (find_avidemux env.fs app_dir).isSome = true)
    (hconflict : env.fs.path_exists
        (os_path_join output_directory
          ((splitext (basename video_path)).1 ++ ".mov")) = true)
    (hconflict' : env'.fs.path_exists
        (os_path_join output_directory'
          (handbrake_output_name video_path')) = true) :
    ((convert_single_video env app_dir "skip" output_directory
        video_path).result = true ∧
     (convert_single_video env app_dir "skip" output_directory
        video_path).invoked = false) ∧
    ((convert_with_handbrake env' "skip" output_directory'
        video_path').result = true ∧
     (convert_with_handbrake env' "skip" output_directory'
        video_path').invoked = false) := by
  obtain ⟨p, hp⟩ := Option.isSome_iff_exists.mp htool
  constructor
  · constructor <;> simp [convert_single_video, hp, hconflict]
  · constructor <;> simp [convert_with_handbrake, hconflict']

/-- **C4, witness.**  A conflicted file under `skip` in a concrete
environment in which the Avidemux CLI exists: both adapters report
immediate success with no invocation. -/
theorem claim_C4_witness :
    ((find_avidemux (⟨[("/usr/bin/avidemux3_cli", 1), ("/out/a.mov", 5)]⟩ :
        FS) "/app").isSome = true) ∧
    (FS.path_exists ⟨[("/usr/bin/avidemux3_cli", 1), ("/out/a.mov", 5)]⟩
        (os_path_join "/out"
          ((splitext (basename "/in/a.mp4")).1 ++ ".mov")) = true) ∧
    (FS.path_exists ⟨[("/out/b_converted.mp4", 6)]⟩
        (os_path_join "/out" (handbrake_output_name "/in/b.mkv")) = true) ∧
    (((convert_single_video
          ⟨⟨[("/usr/bin/avidemux3_cli", 1), ("/out/a.mov", 5)]⟩, 0, ⟨[]⟩,
            ⟨2025, 3, 7, 9, 5, 30⟩⟩ "/app" "skip" "/out"
          "/in/a.mp4").result = true ∧
      (convert_single_video
          ⟨⟨[("/usr/bin/avidemux3_cli", 1), ("/out/a.mov", 5)]⟩, 0, ⟨[]⟩,
            ⟨2025, 3, 7, 9, 5, 30⟩⟩ "/app" "skip" "/out"
          "/in/a.mp4").invoked = false) ∧
     ((convert_with_handbrake
          ⟨⟨[("/out/b_converted.mp4", 6)]⟩, 0, ⟨[]⟩,
            ⟨2025, 3, 7, 9, 5, 30⟩⟩ "skip" "/out" "/in/b.mkv").result = true ∧
      (convert_with_handbrake
          ⟨⟨[("/out/b_converted.mp4", 6)]⟩, 0, ⟨[]⟩,
            ⟨2025, 3, 7, 9, 5, 30⟩⟩ "skip" "/out"
          "/in/b.mkv").invoked = false)) :=
  ⟨by decide, by decide, by decide,
   claim_C4
     ⟨⟨[("/usr/bin/avidemux3_cli", 1), ("/out/a.mov", 5)]⟩, 0, ⟨[]⟩,
       ⟨2025, 3, 7, 9, 5, 30⟩⟩
     ⟨⟨[("/out/b_converted.mp4", 6)]⟩, 0, ⟨[]⟩, ⟨2025, 3, 7, 9, 5, 30⟩⟩
     "/app" "/out" "/out" "/in/a.mp4" "/in/b.mkv"
     (by decide) (by decide) (by decide)⟩

/-- **C5, counterexample.**  The claim — a conflicted file converted
under the timestamped-suffix policy gets `_YYYYMMDD_HHMMSS` appended by
either adapter — fails on the HandBrake path: with the `"timestamp"`
policy it falls into the numeric-suffix branch and writes
`a_converted_1.mp4`, not the timestamped name the `"timestamp"`
strategy of `generate_unique_filename` would produce. -/
theorem claim_C5_counterexample :
    (convert_with_handbrake
        ⟨⟨[("/out/a_converted.mp4", 7)]⟩, 0, ⟨[]⟩, ⟨2025, 3, 7, 9, 5, 30⟩⟩
        "timestamp" "/out" "/in/a.mp4").output_path
      = some "/out/a_converted_1.mp4" ∧
    some "/out/a_converted_1.mp4"
      ≠ some (generate_unique_filename ⟨[("/out/a_converted.mp4", 7)]⟩
          ⟨2025, 3, 7, 9, 5, 30⟩
          (os_path_join "/out" (handbrake_output_name "/in/a.mp4"))
          "timestamp") := by
  refine ⟨by decide, by decide⟩

/-- **C5, amended.**  Only the Avidemux path implements the
timestamped-suffix policy: (1) the `"timestamp"` strategy of
`generate_unique_filename` appends `_YYYYMMDD_HHMMSS` (current time,
second precision) to the stem before the extension and performs no
collision check — the result is independent of the filesystem; (2) a
conflicted Avidemux conversion under `"timestamp"` uses exactly that
generated path; (3) the HandBrake path treats the `"timestamp"` policy
identically to the numeric-suffix policy, appending `_1`, `_2`, …
instead of a timestamp. -/
theorem claim_C5 :
    (∀ (fs fs' : FS) (now : PyDateTime) (base_path : String),
        generate_unique_filename fs now base_path "timestamp"
          = os_path_join (dirname base_path)
              ((splitext (basename base_path)).1 ++ "_" ++
                strftime_timestamp now ++ (splitext (basename base_path)).2) ∧
        generate_unique_filename fs now base_path "timestamp"
          = generate_unique_filename fs' now base_path "timestamp") ∧
    (∀ (env : ToolEnv) (app_dir output_directory video_path : String),
        (find_avidemux env.fs app_dir).isSome = true →
        env.fs.path_exists (os_path_join output_directory
            ((splitext (basename video_path)).1 ++ ".mov")) = true →
        (convert_single_video env app_dir "timestamp" output_directory
            video_path).output_path
          = some (generate_unique_filename env.fs env.now
              (os_path_join output_directory
                ((splitext (basename video_path)).1 ++ ".mov"))
              "timestamp")) ∧
    (∀ (env : ToolEnv) (output_directory video_path : String),
        convert_with_handbrake env "timestamp" output_directory video_path
          = convert_with_handbrake env "suffix" output_directory
              video_path) := by
  refine ⟨fun fs fs' now base_path => ⟨rfl, rfl⟩, ?_, ?_⟩
  · intro env app_dir output_directory video_path htool hconflict
    obtain ⟨p, hp⟩ := Option.isSome_iff_exists.mp htool
    simp [convert_single_video, hp, hconflict]
  · intro env output_directory video_path
    rfl

/-- **C5, witness.**  A concrete conflicted Avidemux conversion under
the timestamp policy uses the timestamped destination. -/
theorem claim_C5_witness :
    ((find_avidemux (⟨[("/usr/bin/avidemux3_cli", 1), ("/out/a.mov", 5)]⟩ :
        FS) "/app").isSome = true) ∧
    (FS.path_exists ⟨[("/usr/bin/avidemux3_cli", 1), ("/out/a.mov", 5)]⟩
        (os_path_join "/out"
          ((splitext (basename "/in/a.mp4")).1 ++ ".mov")) = true) ∧
    ((convert_single_video
        ⟨⟨[("/usr/bin/avidemux3_cli", 1), ("/out/a.mov", 5)]⟩, 0, ⟨[]⟩,
          ⟨2025, 3, 7, 9, 5, 30⟩⟩ "/app" "timestamp" "/out"
        "/in/a.mp4").output_path
      = some (generate_unique_filename
          ⟨[("/usr/bin/avidemux3_cli", 1), ("/out/a.mov", 5)]⟩
          ⟨2025, 3, 7, 9, 5, 30⟩
          (os_path_join "/out"
            ((splitext (basename "/in/a.mp4")).1 ++ ".mov"))
          "timestamp")) :=
  ⟨by decide, by decide,
   claim_C5.2.1
     ⟨⟨[("/usr/bin/avidemux3_cli", 1), ("/out/a.mov", 5)]⟩, 0, ⟨[]⟩,
       ⟨2025, 3, 7, 9, 5, 30⟩⟩
     "/app" "/out" "/in/a.mp4" (by decide) (by decide)⟩

/-- **C6, counterexample.**  The claim — under `overwrite` neither
adapter deletes the destination itself, so a failed tool invocation
leaves the pre-existing file in place — fails on the HandBrake path: on
a conflicted file it calls `os.remove` on the destination before
spawning the tool, here followed by a failing invocation (exit code 1),
so the deletion was not performed by the tool. -/
theorem claim_C6_counterexample :
    (convert_with_handbrake
        ⟨⟨[("/out/a_converted.mp4", 7)]⟩, 1, ⟨[]⟩, ⟨2025, 3, 7, 9, 5, 30⟩⟩
        "overwrite" "/out" "/in/a.mp4").removed
      = some "/out/a_converted.mp4" ∧
    (convert_with_handbrake
        ⟨⟨[("/out/a_converted.mp4", 7)]⟩, 1, ⟨[]⟩, ⟨2025, 3, 7, 9, 5, 30⟩⟩
        "overwrite" "/out" "/in/a.mp4").result = false ∧
    some "/out/a_converted.mp4" ≠ (none : Option String) := by
  refine ⟨by decide, by decide, by decide⟩

/-- **C6, amended.**  Under the `overwrite` policy both adapters keep
the destination path unchanged, and the Avidemux path performs no
separate deletion; the HandBrake path, however, deletes the
pre-existing destination with `os.remove` before invoking the tool, so
after a failed HandBrake invocation the pre-existing destination file
no longer exists. -/
theorem claim_C6 (env env' : ToolEnv)
    (app_dir output_directory output_directory' video_path video_path' : String)
    (htool : (find_avidemux env.fs app_dir).isSome = true)
    (hconflict : env.fs.path_exists
        (os_path_join output_directory
          ((splitext (basename video_path)).1 ++ ".mov")) = true)
    (hconflict' : env'.fs.path_exists
        (os_path_join output_directory'
          (handbrake_output_name video_path')) = true) :
    ((convert_single_video env app_dir "overwrite" output_directory
        video_path).output_path
        = some (os_path_join output_directory
            ((splitext (basename video_path)).1 ++ ".mov")) ∧
     (convert_single_video env app_dir "overwrite" output_directory
        video_path).removed = none) ∧
    ((convert_with_handbrake env' "overwrite" output_directory'
        video_path').output_path
        = some (os_path_join output_directory'
            (handbrake_output_name video_path')) ∧
     (convert_with_handbrake env' "overwrite" output_directory'
        video_path').removed
        = some (os_path_join output_directory'
            (handbrake_output_name video_path'))) := by
  obtain ⟨p, hp⟩ := Option.isSome_iff_exists.mp htool
  constructor
  · constructor <;> simp [convert_single_video, hp, hconflict]
  · constructor <;> simp [convert_with_handbrake, hconflict']

/-- **C6, witness.**  A concrete conflicted file under `overwrite`:
the Avidemux path keeps the path and deletes nothing; the HandBrake
path keeps the path and deletes the pre-existing destination. -/
theorem claim_C6_witness :
    ((find_avidemux (⟨[("/usr/bin/avidemux3_cli", 1), ("/out/a.mov", 5)]⟩ :
        FS) "/app").isSome = true) ∧
    (FS.path_exists ⟨[("/usr/bin/avidemux3_cli", 1), ("/out/a.mov", 5)]⟩
        (os_path_join "/out"
          ((splitext (basename "/in/a.mp4")).1 ++ ".mov")) = true) ∧
    (FS.path_exists ⟨[("/out/b_converted.mp4", 6)]⟩
        (os_path_join "/out" (handbrake_output_name "/in/b.mkv")) = true) ∧
    (((convert_single_video
          ⟨⟨[("/usr/bin/avidemux3_cli", 1), ("/out/a.mov", 5)]⟩, 1, ⟨[]⟩,
            ⟨2025, 3, 7, 9, 5, 30⟩⟩ "/app" "overwrite" "/out"
          "/in/a.mp4").output_path
        = some (os_path_join "/out"
            ((splitext (basename "/in/a.mp4")).1 ++ ".mov")) ∧
      (convert_single_video
          ⟨⟨[("/usr/bin/avidemux3_cli", 1), ("/out/a.mov", 5)]⟩, 1, ⟨[]⟩,
            ⟨2025, 3, 7, 9, 5, 30⟩⟩ "/app" "overwrite" "/out"
          "/in/a.mp4").removed = none) ∧
     ((convert_with_handbrake
          ⟨⟨[("/out/b_converted.mp4", 6)]⟩, 1, ⟨[]⟩,
            ⟨2025, 3, 7, 9, 5, 30⟩⟩ "overwrite" "/out"
          "/in/b.mkv").output_path
        = some (os_path_join "/out" (handbrake_output_name "/in/b.mkv")) ∧
      (convert_with_handbrake
          ⟨⟨[("/out/b_converted.mp4", 6)]⟩, 1, ⟨[]⟩,
            ⟨2025, 3, 7, 9, 5, 30⟩⟩ "overwrite" "/out"
          "/in/b.mkv").removed
        = some (os_path_join "/out" (handbrake_output_name "/in/b.mkv")))) :=
  ⟨by decide, by decide, by decide,
   claim_C6
     ⟨⟨[("/usr/bin/avidemux3_cli", 1), ("/out/a.mov", 5)]⟩, 1, ⟨[]⟩,
       ⟨2025, 3, 7, 9, 5, 30⟩⟩
     ⟨⟨[("/out/b_converted.mp4", 6)]⟩, 1, ⟨[]⟩, ⟨2025, 3, 7, 9, 5, 30⟩⟩
     "/app" "/out" "/out" "/in/a.mp4" "/in/b.mkv"
     (by decide) (by decide) (by decide)⟩

/-- **C8.**  One file's adapter failure (or exception) never prevents
later files from being attempted: with no cancellation, the loop
dispatches every selected file to an adapter, and the list of
dispatched files does not depend on the adapter outcomes at all. -/
theorem claim_C8 (adapter : Nat → AdapterOutcome) (rows : List TreeRow)
    (video_files : List String) :
    (convert_videos adapter none rows video_files).attempted
        = selected_video_paths rows video_files ∧
    ∀ adapter' : Nat → AdapterOutcome,
      (convert_videos adapter none rows video_files).attempted
        = (convert_videos adapter' none rows video_files).attempted := by
  constructor
  · exact convert_videos_loop_attempted_of_no_stop adapter _ 0 rows
  · intro adapter'
    rw [show (convert_videos adapter none rows video_files).attempted
          = selected_video_paths rows video_files from
        convert_videos_loop_attempted_of_no_stop adapter _ 0 rows,
      show (convert_videos adapter' none rows video_files).attempted
          = selected_video_paths rows video_files from
        convert_videos_loop_attempted_of_no_stop adapter' _ 0 rows]

theorem splitAtLastDot_eq_append :
    ∀ (cs b a : List Char), splitAtLastDot cs = some (b, a) → cs = b ++ a := by
  intro cs
  induction cs with
  | nil =>
    intro b a h
    exact absurd h (by simp [splitAtLastDot])
  | cons c rest ih =>
    intro b a h
    unfold splitAtLastDot at h
    cases hrec : splitAtLastDot rest with
    | some ba =>
      obtain ⟨b', a'⟩ := ba
      rw [hrec] at h
      obtain ⟨hb, ha⟩ := Prod.mk.injEq .. ▸ Option.some.inj h
      rw [← hb, ← ha, ih b' a' hrec]
      rfl
    | none =>
      rw [hrec] at h
      by_cases hc : c = '.'
      · rw [if_pos hc] at h
        obtain ⟨hb, ha⟩ := Prod.mk.injEq .. ▸ Option.some.inj h
        rw [← hb, ← ha, hc]
        rfl
      · rw [if_neg hc] at h
        exact absurd h (by simp)

theorem splitAtLastSlash_none_no_slash :
    ∀ cs : List Char, splitAtLastSlash cs = none → '/' ∉ cs := by
  intro cs
  induction cs with
  | nil =>
    intro _ hmem
    exact List.not_mem_nil _ hmem
  | cons c rest ih =>
    intro h hmem
    unfold splitAtLastSlash at h
    cases hrec : splitAtLastSlash rest with
    | some ba =>
      obtain ⟨b', a'⟩ := ba
      rw [hrec] at h
      exact absurd h (by simp)
    | none =>
      rw [hrec] at h
      by_cases hc : c = '/'
      · rw [if_pos hc] at h
        exact absurd h (by simp)
      · rw [if_neg hc] at h
        rcases List.mem_cons.mp hmem with h1 | h2
        · exact hc h1.symm
        · exact ih hrec h2

theorem splitAtLastSlash_some_no_slash :
    ∀ (cs b a : List Char), splitAtLastSlash cs = some (b, a) → '/' ∉ a := by
  intro cs
  induction cs with
  | nil =>
    intro b a h
    exact absurd h (by simp [splitAtLastSlash])
  | cons c rest ih =>
    intro b a h
    unfold splitAtLastSlash at h
    cases hrec : splitAtLastSlash rest with
    | some ba =>
      obtain ⟨b', a'⟩ := ba
      rw [hrec] at h
      obtain ⟨_, ha⟩ := Prod.mk.injEq .. ▸ Option.some.inj h
      exact ha ▸ ih b' a' hrec
    | none =>
      rw [hrec] at h
      by_cases hc : c = '/'
      · rw [if_pos hc] at h
        obtain ⟨_, ha⟩ := Prod.mk.injEq .. ▸ Option.some.inj h
        exact ha ▸ splitAtLastSlash_none_no_slash rest hrec
      · rw [if_neg hc] at h
        exact absurd h (by simp)

theorem basename_no_slash (p : String) : '/' ∉ (basename p).data := by
  unfold basename
  cases h : splitAtLastSlash p.data with
  | none => exact splitAtLastSlash_none_no_slash p.data h
  | some ba =>
    obtain ⟨b, a⟩ := ba
    exact splitAtLastSlash_some_no_slash p.data b a h

theorem splitext_fst_no_slash (n : String) (hn : '/' ∉ n.data) :
    '/' ∉ ((splitext n).1).data := by
  unfold splitext
  cases h : splitAtLastDot n.data with
  | none => exact hn
  | some ba =>
    obtain ⟨b, a⟩ := ba
    show '/' ∉ ((if (b.any fun c => decide (c ≠ '.')) = true
        then ((⟨b⟩ : String), (⟨a⟩ : String)) else (n, "")).1).data
    by_cases hb : (b.any fun c => decide (c ≠ '.')) = true
    · rw [if_pos hb]
      intro hmem
      exact hn ((splitAtLastDot_eq_append n.data b a h).symm ▸
        List.mem_append_left a hmem)
    · rw [if_neg hb]
      exact hn

theorem starts_with_sep_append_eq_false (s t : String)
    (hs : '/' ∉ s.data) (ht : starts_with_sep t = false) :
    starts_with_sep (s ++ t) = false := by
  unfold starts_with_sep at ht ⊢
  rw [String.data_append]
  cases hsd : s.data with
  | nil => simpa using ht
  | cons c cs =>
    have hc : c ≠ '/' := by
      intro hcc
      exact hs (hsd ▸ (hcc ▸ List.mem_cons_self c cs))
    simp only [List.cons_append, List.head?_cons]
    rw [beq_eq_false_iff_ne]
    intro hsome
    exact hc (Option.some.inj hsome)

theorem os_path_join_ne_of_length_ne (a b₁ b₂ : String)
    (h1 : starts_with_sep b₁ = false) (h2 : starts_with_sep b₂ = false)
    (hlen : b₁.length ≠ b₂.length) :
    os_path_join a b₁ ≠ os_path_join a b₂ := by
  unfold os_path_join
  rw [h1, h2]
  simp only [Bool.false_eq_true, if_false]
  by_cases hcond : (decide (a = "") || ends_with_sep a) = true
  · rw [if_pos hcond, if_pos hcond]
    intro heq
    have := congrArg String.length heq
    rw [String.length_append, String.length_append] at this
    omega
  · rw [if_neg hcond, if_neg hcond]
    intro heq
    have := congrArg String.length heq
    rw [String.length_append, String.length_append,
      String.length_append, String.length_append] at this
    omega

theorem starts_with_sep_predicted_H264 (video_path : String) :
    starts_with_sep (predicted_output_name FormatName.H264 video_path)
      = false :=
  starts_with_sep_append_eq_false ((splitext (basename video_path)).1)
    ".mp4" (splitext_fst_no_slash _ (basename_no_slash video_path))
    (by decide)

theorem starts_with_sep_handbrake (video_path : String) :
    starts_with_sep (handbrake_output_name video_path) = false :=
  starts_with_sep_append_eq_false ((splitext (basename video_path)).1)
    "_converted.mp4" (splitext_fst_no_slash _ (basename_no_slash video_path))
    (by decide)

theorem predicted_H264_length (video_path : String) :
    (predicted_output_name FormatName.H264 video_path).length + 10
      = (handbrake_output_name video_path).length := by
  show ((splitext (basename video_path)).1 ++ ".mp4").length + 10
      = ((splitext (basename video_path)).1 ++ "_converted.mp4").length
  rw [String.length_append, String.length_append]
  have h4 : (".mp4" : String).length = 4 := rfl
  have h14 : ("_converted.mp4" : String).length = 14 := rfl
  omega

theorem check_destination_conflicts_mem (fs : FS)
    (output_directory : String) (fmt : FormatName)
    (video_files selected_videos : List String) (vp dest : String)
    (h : (vp, dest) ∈ check_destination_conflicts fs output_directory fmt
        video_files selected_videos) :
    dest = os_path_join output_directory (predicted_output_name fmt vp) := by
  unfold check_destination_conflicts at h
  by_cases hout : (output_directory == "") = true
  · rw [if_pos hout] at h
    exact absurd h (List.not_mem_nil _)
  · rw [if_neg hout] at h
    obtain ⟨x, hx, hfx⟩ := List.mem_filterMap.mp h
    by_cases hsel : selected_videos.contains (basename x) = true
    · rw [if_pos hsel] at hfx
      by_cases hex : fs.path_exists
          (os_path_join output_directory (predicted_output_name fmt x)) = true
      · rw [if_pos hex] at hfx
        obtain ⟨hvp, hdest⟩ := Prod.mk.injEq .. ▸ Option.some.inj hfx
        rw [← hdest, hvp]
      · rw [if_neg hex] at hfx
        exact absurd hfx (by simp)
    · rw [if_neg hsel] at hfx
      exact absurd hfx (by simp)

/-- **C9.**  The conflict detector predicts `<stem>.mp4` for the H.264
profile while the HandBrake adapter writes `<stem>_converted.mp4`; for
every source file those two filenames differ, so every conflict entry
detected before an H.264 run names a destination distinct from the path
the HandBrake adapter would actually write in the same output
directory. -/
theorem claim_C9 :
    (∀ video_path : String,
        predicted_output_name FormatName.H264 video_path
          ≠ handbrake_output_name video_path) ∧
    (∀ (fs : FS) (output_directory : String)
        (video_files selected_videos : List String) (vp dest : String),
        (vp, dest) ∈ check_destination_conflicts fs output_directory
            FormatName.H264 video_files selected_videos →
        dest = os_path_join output_directory
            (predicted_output_name FormatName.H264 vp) ∧
        dest ≠ os_path_join output_directory (handbrake_output_name vp)) := by
  constructor
  · intro video_path heq
    have := congrArg String.length heq
    have hlen := predicted_H264_length video_path
    omega
  · intro fs output_directory video_files selected_videos vp dest h
    have hdest := check_destination_conflicts_mem fs output_directory
      FormatName.H264 video_files selected_videos vp dest h
    refine ⟨hdest, ?_⟩
    rw [hdest]
    exact os_path_join_ne_of_length_ne output_directory _ _
      (starts_with_sep_predicted_H264 vp) (starts_with_sep_handbrake vp)
      (by have := predicted_H264_length vp; omega)

/-- **C9, witness.**  A concrete H.264 conflict entry: the detected
destination `/out/a.mp4` is the predicted path and differs from the
path HandBrake would write. -/
theorem claim_C9_witness :
    (("/in/a.mp4", "/out/a.mp4") ∈ check_destination_conflicts
        ⟨[("/out/a.mp4", 9)]⟩ "/out" FormatName.H264 ["/in/a.mp4"]
        ["a.mp4"]) ∧
    ("/out/a.mp4" = os_path_join "/out"
        (predicted_output_name FormatName.H264 "/in/a.mp4") ∧
     "/out/a.mp4" ≠ os_path_join "/out"
        (handbrake_output_name "/in/a.mp4")) :=
  ⟨by decide,
   claim_C9.2 ⟨[("/out/a.mp4", 9)]⟩ "/out" ["/in/a.mp4"] ["a.mp4"]
     "/in/a.mp4" "/out/a.mp4" (by decide)⟩

/-- **C10.**  The progress computation has no guard against a zero
total: whenever no checked tree row matches a stored file path, the
unconditional end-of-run `update_progress(total, total)` call divides
by zero (the `none` case), and in general the progress computation
yields a value exactly when the total is positive. -/
theorem claim_C10 (adapter : Nat → AdapterOutcome) (stopFrom : Option Nat)
    (rows : List TreeRow) (video_files : List String)
    (h : selected_video_paths rows video_files = []) :
    (convert_videos adapter stopFrom rows video_files).finalProgress = none ∧
    ∀ current total : Nat,
      (update_progress current total).isSome = true ↔ 0 < total := by
  constructor
  · show (convert_videos_selected adapter stopFrom rows
        (selected_video_paths rows video_files)).finalProgress = none
    rw [h]
    rfl
  · intro current total
    cases total with
    | zero => simp [update_progress]
    | succ n => simp [update_progress]

/-- **C10, witness.**  A checked row whose name matches no stored path:
the selection comes up empty and the end-of-run progress update is the
division by zero. -/
theorem claim_C10_witness :
    selected_video_paths [["☑", "a.mp4", "1.0 MB", "0:30", "Ready"]]
        ["/in/b.mp4"] = [] ∧
    ((convert_videos (fun _ => AdapterOutcome.success) none
        [["☑", "a.mp4", "1.0 MB", "0:30", "Ready"]] ["/in/b.mp4"]).finalProgress
          = none ∧
      ∀ current total : Nat,
        (update_progress current total).isSome = true ↔ 0 < total) :=
  ⟨by decide,
   claim_C10 (fun _ => AdapterOutcome.success) none
     [["☑", "a.mp4", "1.0 MB", "0:30", "Ready"]] ["/in/b.mp4"] (by decide)⟩

end VideoConv
